import Mathlib

/-!
Verification of the credential-cache client in
`src/sync.pool.patch/client/client.go` (package `client` of the wechat
repository): a shallow embedding of `NewClient`, `postJSON`, `getJSON`,
the credential state published by the background token service, and the
refresh-scheduling loop, together with theorems about them.

Parts of the package that are referenced by `client.go` but whose bodies
live in files not present here (`tokenService`, `TokenRefresh`, `Token`,
the pool helpers) are modelled from the specification document; each such
definition carries a doc comment starting `Modelled from the spec:`.
-/

namespace WechatClient

/-- Go `error` values produced by the client, one constructor per kind:
network/transport failure from the HTTP call, the `fmt.Errorf("http.Status: %s", ...)`
error for a bad status, a JSON encode failure, a JSON decode failure. -/
inductive GoError where
  | network (msg : String)
  | httpStatus (text : String)
  | encode (msg : String)
  | decode (msg : String)
deriving DecidableEq

/-- The parts of Go's `http.Response` the client reads: `StatusCode` and
the status text `Status` (e.g. "404 Not Found"). -/
structure HttpResp where
  statusCode : Nat
  status : String
deriving DecidableEq

/-- Go constant `http.StatusOK`. -/
def StatusOK : Nat := 200

/-- An acquisition or release of a buffer from the client's `bufferPool`
(`c.getBufferFromPool()` / `c.putBufferToPool(buf)`). -/
inductive PoolEvent where
  | acquire
  | release
deriving DecidableEq

/-- Environment for one `postJSON` call: the outcome of each fallible
external step, supplied as an oracle.  `encodeResult`/`decodeResult` are
`some msg` when `json.Encode`/`json.Decode` fails with that message;
`postResult` is the outcome of `c.httpClient.Post`. -/
structure PostEnv where
  encodeResult : Option String
  postResult : Except String HttpResp
  decodeResult : Option String

/-- What one `postJSON` (or `getJSON`) call did: the returned `err`
(`none` = Go `nil`), the sequence of buffer-pool operations performed,
and whether `json.Decode` on the response body was attempted. -/
structure CallOutcome where
  err : Option GoError
  poolEvents : List PoolEvent
  decodeAttempted : Bool
deriving DecidableEq

/-- Embedding of `Client.postJSON` (client.go lines 64-87).  The body
acquires a buffer from the pool first and `defer`s its release, so every
return path below carries the release after the acquire:
encode error, transport error from `Post`, `StatusCode != http.StatusOK`,
decode error, and success. -/
def postJSON (env : PostEnv) : CallOutcome :=
  match env.encodeResult with
  | some m => ⟨some (.encode m), [.acquire, .release], false⟩
  | none =>
    match env.postResult with
    | .error m => ⟨some (.network m), [.acquire, .release], false⟩
    | .ok resp =>
      if resp.statusCode ≠ StatusOK then
        ⟨some (.httpStatus ("http.Status: " ++ resp.status)), [.acquire, .release], false⟩
      else
        match env.decodeResult with
        | some m => ⟨some (.decode m), [.acquire, .release], true⟩
        | none => ⟨none, [.acquire, .release], true⟩

/-- Environment for one `getJSON` call: outcome of `c.httpClient.Get`
and of `json.Decode`. -/
structure GetEnv where
  getResult : Except String HttpResp
  decodeResult : Option String

/-- Embedding of `Client.getJSON` (client.go lines 90-106).  No buffer is
taken from the pool; otherwise the same shape as `postJSON` minus the
encode step. -/
def getJSON (env : GetEnv) : CallOutcome :=
  match env.getResult with
  | .error m => ⟨some (.network m), [], false⟩
  | .ok resp =>
    if resp.statusCode ≠ StatusOK then
      ⟨some (.httpStatus ("http.Status: " ++ resp.status)), [], false⟩
    else
      match env.decodeResult with
      | some m => ⟨some (.decode m), [], true⟩
      | none => ⟨none, [], true⟩

end WechatClient

namespace WechatClient

/-- Number of events of a given kind in a pool-event trace. -/
def countEvent (e : PoolEvent) (l : List PoolEvent) : Nat :=
  l.countP (· = e)

/-- C7: For every execution of `postJSON`, the buffer acquired from the pool at
entry is released back to the pool on every exit path: success, encode error,
transport error, non-2xx status, and decode error.  The trace of pool
operations is always exactly one acquire followed by its release. -/
theorem postJSON_releases_buffer_on_every_path (env : PostEnv) :
    (postJSON env).poolEvents = [PoolEvent.acquire, PoolEvent.release] ∧
    countEvent PoolEvent.release (postJSON env).poolEvents =
      countEvent PoolEvent.acquire (postJSON env).poolEvents := by
  obtain ⟨enc, post, dec⟩ := env
  cases enc with
  | some m => simp [postJSON, countEvent]
  | none =>
    cases post with
    | error m => simp [postJSON, countEvent]
    | ok resp =>
      by_cases h : resp.statusCode = StatusOK
      · cases dec <;> simp [postJSON, h, countEvent]
      · simp [postJSON, h, countEvent]

/-- C8: for every HTTP response whose status is not 2xx, `postJSON` and the GET
path (`getJSON`) return a transport-level error carrying the response's status
text, and do not attempt to decode the body.  (The code tests
`StatusCode != http.StatusOK`, and every non-2xx code differs from 200.) -/
theorem non2xx_status_is_transport_error (penv : PostEnv) (genv : GetEnv)
    (resp resp' : HttpResp)
    (hpost : penv.postResult = Except.ok resp)
    (henc : penv.encodeResult = none)
    (hbad : resp.statusCode < 200 ∨ 300 ≤ resp.statusCode)
    (hget : genv.getResult = Except.ok resp')
    (hbad' : resp'.statusCode < 200 ∨ 300 ≤ resp'.statusCode) :
    (postJSON penv).err = some (.httpStatus ("http.Status: " ++ resp.status)) ∧
    (postJSON penv).decodeAttempted = false ∧
    (getJSON genv).err = some (.httpStatus ("http.Status: " ++ resp'.status)) ∧
    (getJSON genv).decodeAttempted = false := by
  have hne : resp.statusCode ≠ StatusOK := by
    simp only [StatusOK]; omega
  have hne' : resp'.statusCode ≠ StatusOK := by
    simp only [StatusOK]; omega
  simp [postJSON, getJSON, henc, hpost, hget, hne, hne']

/-- Witness for C8: a concrete 404 response through both paths. -/
theorem non2xx_status_is_transport_error_witness :
    (postJSON ⟨none, Except.ok ⟨404, "404 Not Found"⟩, none⟩).err =
      some (.httpStatus "http.Status: 404 Not Found") ∧
    (postJSON ⟨none, Except.ok ⟨404, "404 Not Found"⟩, none⟩).decodeAttempted = false ∧
    (getJSON ⟨Except.ok ⟨404, "404 Not Found"⟩, none⟩).err =
      some (.httpStatus "http.Status: 404 Not Found") ∧
    (getJSON ⟨Except.ok ⟨404, "404 Not Found"⟩, none⟩).decodeAttempted = false := by
  have h := non2xx_status_is_transport_error
    ⟨none, Except.ok ⟨404, "404 Not Found"⟩, none⟩
    ⟨Except.ok ⟨404, "404 Not Found"⟩, none⟩
    ⟨404, "404 Not Found"⟩ ⟨404, "404 Not Found"⟩
    rfl rfl (by right; decide) rfl (by right; decide)
  simpa using h

/-- A pluggable HTTP transport handle, identified abstractly;
`defaultHttpClient` stands for Go's `http.DefaultClient`. -/
structure HttpClient where
  id : Nat
deriving DecidableEq

/-- Go's `http.DefaultClient`. -/
def defaultHttpClient : HttpClient := ⟨0⟩

/-- The `currentToken` struct embedded in `Client` (client.go lines 25-29):
the current access token and the error of the most recent fetch attempt.
The `sync.RWMutex` guarding the pair is modelled separately (see the
fine-grained machine below); here a value of this type is one atomically
published pair. -/
structure CurrentToken where
  token : String
  err : Option GoError
deriving DecidableEq

/-- The uninitialized sentinel: the zero value of `currentToken` right after
the struct literal in `NewClient`, before any fetch. -/
def emptyCurrentToken : CurrentToken := ⟨"", none⟩

/-- Result of one call of the external `Authenticate` collaborator:
on success a token and its validity duration (seconds), else an error. -/
abbrev AuthResult := Except GoError (String × Nat)

/-- Modelled from the spec: the body of `Client.TokenRefresh` is not under
`src/` (only its call sites are).  Per the spec it performs one fetch and
atomically publishes the whole pair: on success `(newToken, none)`, on
failure the previous token together with the error. -/
def TokenRefresh (r : AuthResult) (prev : CurrentToken) : CurrentToken :=
  match r with
  | .ok (t, _) => ⟨t, none⟩
  | .error e => ⟨prev.token, some e⟩

/-- Embedding of the `Client` struct (client.go lines 20-39).
`fetchCount` and `tokenServiceStarted` are ghost bookkeeping recording how
many synchronous fetches ran and that `go c.tokenService()` was issued. -/
structure Client where
  appid : String
  appsecret : String
  currentToken : CurrentToken
  bufferPoolCapacity : Nat
  httpClient : HttpClient
  fetchCount : Nat
  tokenServiceStarted : Bool
deriving DecidableEq

/-- Embedding of `NewClient` (client.go lines 43-61), with the outcome of
the first fetch supplied as an oracle.  Mirrors the Go order: struct
literal with the zero-valued `currentToken` and pool capacity 16, default
the transport when `nil`, start `tokenService`, then call `TokenRefresh`
synchronously.  Note the Go function returns only `*Client`: there is no
error return value, so this embedding is total. -/
def NewClient (appid appsecret : String) (httpClient : Option HttpClient)
    (firstAuth : AuthResult) : Client :=
  let c : Client :=
    { appid := appid
      appsecret := appsecret
      currentToken := emptyCurrentToken
      bufferPoolCapacity := 16
      httpClient := match httpClient with
        | none => defaultHttpClient
        | some h => h
      fetchCount := 0
      tokenServiceStarted := false }
  let c := { c with tokenServiceStarted := true }
  { c with currentToken := TokenRefresh firstAuth c.currentToken
           fetchCount := c.fetchCount + 1 }

/-- Modelled from the spec: the body of `Client.Token` (CurrentValue) is not
under `src/`.  Per the spec it is a non-blocking read of the current pair
under the read lock; it performs no fetch and does not change the client. -/
def Token (c : Client) : (String × Option GoError) × Client :=
  ((c.currentToken.token, c.currentToken.err), c)

/-- C1: every `NewClient` call performs one credential fetch synchronously
before returning (ghost `fetchCount` is 1 on the returned value, after the
background service is started), so — whenever `Authenticate` either fails or
returns a nonempty token — the returned cache holds a valid token or a
recorded fetch error, never the uninitialized sentinel pair. -/
theorem NewClient_fetches_synchronously (appid appsecret : String)
    (hc : Option HttpClient) (r : AuthResult)
    (h : (∃ e, r = Except.error e) ∨ ∃ t v, r = Except.ok (t, v) ∧ t ≠ "") :
    (NewClient appid appsecret hc r).fetchCount = 1 ∧
    (NewClient appid appsecret hc r).tokenServiceStarted = true ∧
    (NewClient appid appsecret hc r).currentToken ≠ emptyCurrentToken ∧
    (∀ e, r = Except.error e →
      (NewClient appid appsecret hc r).currentToken = ⟨"", some e⟩) ∧
    (∀ t v, r = Except.ok (t, v) →
      (NewClient appid appsecret hc r).currentToken = ⟨t, none⟩) := by
  rcases h with ⟨e, he⟩ | ⟨t, v, hok, ht⟩
  · subst he
    refine ⟨rfl, rfl, ?_, ?_, ?_⟩
    · simp [NewClient, TokenRefresh, emptyCurrentToken]
    · intro e2 he2
      simp only [Except.error.injEq] at he2
      subst he2
      simp [NewClient, TokenRefresh, emptyCurrentToken]
    · intro t v hok
      cases hok
  · subst hok
    refine ⟨rfl, rfl, ?_, ?_, ?_⟩
    · simp [NewClient, TokenRefresh, emptyCurrentToken, ht]
    · intro e2 he2
      cases he2
    · intro t2 v2 hok2
      simp only [Except.ok.injEq, Prod.mk.injEq] at hok2
      obtain ⟨h1, -⟩ := hok2
      subst h1
      simp [NewClient, TokenRefresh]

/-- Witness for C1: a concrete failing first fetch still leaves a recorded
error, not the sentinel. -/
theorem NewClient_fetches_synchronously_witness :
    (NewClient "wxappid" "wxsecret" none
        (Except.error (GoError.network "boom"))).fetchCount = 1 ∧
    (NewClient "wxappid" "wxsecret" none
        (Except.error (GoError.network "boom"))).currentToken ≠ emptyCurrentToken := by
  have h := NewClient_fetches_synchronously "wxappid" "wxsecret" none
    (Except.error (GoError.network "boom")) (Or.inl ⟨_, rfl⟩)
  exact ⟨h.1, h.2.2.1⟩

/-- Counterexample to C2 as stated: with a failing first fetch at a concrete
input, `NewClient` — whose Go signature returns only `*Client`, with no error
result — still returns a client; the authentication error is not propagated to
the caller but recorded in `currentToken`, and the cache is usable: `Token`
surfaces the recorded error. -/
theorem NewClient_failed_first_fetch_still_returns_client :
    (NewClient "wxappid" "wxsecret" none
        (Except.error (GoError.network "auth down"))).currentToken
      = ⟨"", some (GoError.network "auth down")⟩ ∧
    (Token (NewClient "wxappid" "wxsecret" none
        (Except.error (GoError.network "auth down")))).1
      = ("", some (GoError.network "auth down")) :=
  ⟨rfl, rfl⟩

/-- C2 (amended): if the very first construction-time fetch fails, `NewClient`
does not fail — it has no error return value; it still returns the client,
with the failure recorded in the credential state (empty token, stored error)
and surfaced to callers by subsequent `Token` reads. -/
theorem NewClient_records_first_fetch_error (appid appsecret : String)
    (hc : Option HttpClient) (e : GoError) :
    (NewClient appid appsecret hc (Except.error e)).currentToken.token = "" ∧
    (NewClient appid appsecret hc (Except.error e)).currentToken.err = some e ∧
    (Token (NewClient appid appsecret hc (Except.error e))).1 = ("", some e) := by
  simp [NewClient, TokenRefresh, Token, emptyCurrentToken]

/-- C6: `Token` (CurrentValue) is a non-blocking read: it returns the pair
currently published, performs no fetch (ghost `fetchCount` unchanged), leaves
the client untouched, and when the most recent fetch failed it returns that
recorded error rather than retrying. -/
theorem Token_nonblocking_read (c : Client) (e : GoError)
    (h : c.currentToken.err = some e) :
    (Token c).2 = c ∧
    (Token c).2.fetchCount = c.fetchCount ∧
    (Token c).1 = (c.currentToken.token, some e) := by
  simp [Token, h]

/-- Witness for C6 on a concrete client holding a failed-fetch error. -/
theorem Token_nonblocking_read_witness :
    (Token ⟨"a", "s", ⟨"tok", some (GoError.network "x")⟩, 16,
        defaultHttpClient, 1, true⟩).1 = ("tok", some (GoError.network "x")) :=
  (Token_nonblocking_read
    ⟨"a", "s", ⟨"tok", some (GoError.network "x")⟩, 16,
        defaultHttpClient, 1, true⟩ (GoError.network "x") rfl).2.2

/-- Modelled from the spec: the state owned by the background `tokenService`
goroutine (its body is not under `src/`): the atomically published credential
pair, the interval currently arming the timer, whether a fetch has been
requested but not yet published, and a ghost count of published attempts. -/
structure LoopState where
  cred : CurrentToken
  interval : Nat
  fetchPending : Bool
  attempts : Nat

/-- Events observed by the background loop, at the granularity the spec
describes: a rendezvous hand-off on `resetRefreshTokenTickChan` completing
(which is the instant `TokenRefresh`/ForceRefresh returns to its caller),
the timer firing, and an in-flight fetch completing and being published. -/
inductive LoopEvent where
  | handoff (d : Nat)
  | timerFire
  | publish (r : AuthResult)

/-- Modelled from the spec: one step of the `tokenService` loop.  A hand-off
re-arms the timer to the delivered duration and requests a fetch; a timer
fire requests a fetch; a completing fetch atomically publishes its whole
result — on success `(newToken, none)` with the next interval derived from
the reported validity minus a safety `margin`, on failure the previous token
with the error and the shorter `fallback` interval, the loop continuing
either way. -/
def tokenServiceStep (margin fallback : Nat) (s : LoopState) :
    LoopEvent → LoopState
  | .handoff d => { s with interval := d, fetchPending := true }
  | .timerFire => { s with fetchPending := true }
  | .publish r =>
    match r with
    | .ok (t, validFor) =>
        { cred := ⟨t, none⟩, interval := validFor - margin,
          fetchPending := false, attempts := s.attempts + 1 }
    | .error e =>
        { cred := ⟨s.cred.token, some e⟩, interval := fallback,
          fetchPending := false, attempts := s.attempts + 1 }

/-- Run the loop over a list of events. -/
def runLoop (margin fallback : Nat) (s : LoopState) : List LoopEvent → LoopState
  | [] => s
  | e :: es => runLoop margin fallback (tokenServiceStep margin fallback s e) es

/-- The pair `Token`/CurrentValue would observe in a given loop state. -/
def currentValue (s : LoopState) : String × Option GoError :=
  (s.cred.token, s.cred.err)

/-- C4: when a scheduled refresh fails after a previous success, the loop
publishes the error while retaining the previously fetched token — a
subsequent CurrentValue read returns the stale token together with the new
error, not an empty token — the timer re-arms on the fallback interval, and
the loop keeps running: a later successful fetch publishes normally. -/
theorem failed_refresh_retains_stale_token (margin fallback : Nat)
    (s : LoopState) (tok1 : String) (e : GoError) (h : s.cred = ⟨tok1, none⟩) :
    (runLoop margin fallback s [.timerFire, .publish (Except.error e)]).cred
      = ⟨tok1, some e⟩ ∧
    currentValue (runLoop margin fallback s [.timerFire, .publish (Except.error e)])
      = (tok1, some e) ∧
    (runLoop margin fallback s [.timerFire, .publish (Except.error e)]).interval
      = fallback ∧
    (∀ t v, (tokenServiceStep margin fallback
        (runLoop margin fallback s [.timerFire, .publish (Except.error e)])
        (.publish (Except.ok (t, v)))).cred = ⟨t, none⟩) := by
  simp [runLoop, tokenServiceStep, currentValue, h]

/-- Witness for C4: Authenticate returned ("tok1", 2h) and the next scheduled
refresh fails with a network error. -/
theorem failed_refresh_retains_stale_token_witness :
    currentValue (runLoop 300 60 ⟨⟨"tok1", none⟩, 6900, false, 1⟩
        [.timerFire, .publish (Except.error (GoError.network "net down"))])
      = ("tok1", some (GoError.network "net down")) :=
  (failed_refresh_retains_stale_token 300 60 ⟨⟨"tok1", none⟩, 6900, false, 1⟩
    "tok1" (GoError.network "net down") rfl).2.1

/-- C5: a ForceRefresh/TokenRefresh hand-off of duration D is synchronous with
respect to scheduling — as soon as the rendezvous completes (the instant the
call returns) the interval arming the timer is D, and with two hand-offs in
quick succession the second one wins — but asynchronous with respect to the
fetch: the hand-off leaves the published credential pair unchanged, and the
newly fetched token becomes visible only when the loop publishes it. -/
theorem forceRefresh_schedule_semantics (margin fallback : Nat) (s : LoopState)
    (d1 d2 : Nat) :
    (tokenServiceStep margin fallback s (.handoff d1)).interval = d1 ∧
    (tokenServiceStep margin fallback s (.handoff d1)).cred = s.cred ∧
    (tokenServiceStep margin fallback s (.handoff d1)).fetchPending = true ∧
    (runLoop margin fallback s [.handoff d1, .handoff d2]).interval = d2 ∧
    (runLoop margin fallback s [.handoff d1, .handoff d2]).cred = s.cred ∧
    (∀ t v, (tokenServiceStep margin fallback s
        (.publish (Except.ok (t, v)))).cred = ⟨t, none⟩) := by
  simp [tokenServiceStep, runLoop]

/-- C9: the configuration surface.  Construction takes an application id, a
secret, and an optional custom transport which defaults to
`http.DefaultClient` when absent; the buffer-pool capacity is the constant
16.  The one runtime-tunable knob is the refresh interval delivered by
ForceRefresh through the hand-off; a `Token` read tunes nothing (it leaves
the client unchanged). -/
theorem configuration_surface (appid appsecret : String) (h : HttpClient)
    (r : AuthResult) (margin fallback d : Nat) (s : LoopState) (c : Client) :
    (NewClient appid appsecret none r).httpClient = defaultHttpClient ∧
    (NewClient appid appsecret (some h) r).httpClient = h ∧
    (NewClient appid appsecret (some h) r).appid = appid ∧
    (NewClient appid appsecret (some h) r).appsecret = appsecret ∧
    (NewClient appid appsecret (some h) r).bufferPoolCapacity = 16 ∧
    (tokenServiceStep margin fallback s (.handoff d)).interval = d ∧
    (Token c).2 = c := by
  refine ⟨rfl, rfl, rfl, rfl, rfl, rfl, rfl⟩

/-- Writer progress through one guarded update of `currentToken`:
lock free, write lock taken, `token` field written, both fields written
(unlock still pending). -/
inductive WPhase where
  | idle
  | locked
  | tokenWritten
  | bothWritten
deriving DecidableEq

/-- Modelled from the spec: the memory cell `Client.currentToken` (client.go
lines 25-29) at field granularity, guarded by its `sync.RWMutex`.  The single
writer (the refresh routine) updates the two fields one at a time while
holding the write lock; `pending` is the stream of pairs it will publish. -/
structure RWState where
  memToken : String
  memErr : Option GoError
  phase : WPhase
  pending : List (String × Option GoError)

/-- One micro-step of the writer: take the write lock, store the token field,
store the err field, release the lock (consuming the published pair). -/
def writerMicroStep (s : RWState) : RWState :=
  match s.phase, s.pending with
  | .idle, _ :: _ => { s with phase := .locked }
  | .locked, (t, _) :: _ => { s with memToken := t, phase := .tokenWritten }
  | .tokenWritten, (_, e) :: _ => { s with memErr := e, phase := .bothWritten }
  | .bothWritten, _ :: rest => { s with phase := .idle, pending := rest }
  | _, [] => s

/-- Run an interleaving of writer micro-steps (`true`) and reader attempts
(`false`).  A reader takes the read lock, which the `RWMutex` grants only
while no writer holds the write lock (`phase = idle`); a blocked reader
produces no observation at that point.  Returns the final state and the list
of pairs the readers observed. -/
def runRW : RWState → List Bool → RWState × List (String × Option GoError)
  | s, [] => (s, [])
  | s, true :: rest => runRW (writerMicroStep s) rest
  | s, false :: rest =>
    if s.phase = WPhase.idle then
      ((runRW s rest).1, (s.memToken, s.memErr) :: (runRW s rest).2)
    else runRW s rest

/-- Invariant tying the cell to the set `A` of whole published pairs:
pairs still pending all lie in `A`; whenever the lock is free the cell holds
a whole pair from `A`; mid-update the partially written fields agree with the
pair being published. -/
def RWInv (A : List (String × Option GoError)) (s : RWState) : Prop :=
  (∀ p ∈ s.pending, p ∈ A) ∧
  (s.phase = WPhase.idle → (s.memToken, s.memErr) ∈ A) ∧
  (s.phase = WPhase.tokenWritten →
    ∃ p rest, s.pending = p :: rest ∧ s.memToken = p.1) ∧
  (s.phase = WPhase.bothWritten →
    ∃ p rest, s.pending = p :: rest ∧ (s.memToken, s.memErr) = p)

theorem writerMicroStep_preserves (A : List (String × Option GoError))
    (s : RWState) (h : RWInv A s) : RWInv A (writerMicroStep s) := by
  obtain ⟨tok, err, phase, pending⟩ := s
  obtain ⟨hA, hidle, htok, hboth⟩ := h
  cases phase with
  | idle =>
    cases pending with
    | nil => exact ⟨hA, hidle, htok, hboth⟩
    | cons p rest =>
      refine ⟨hA, ?_, ?_, ?_⟩ <;> intro hc <;> simp [writerMicroStep] at hc
  | locked =>
    cases pending with
    | nil => exact ⟨hA, hidle, htok, hboth⟩
    | cons p rest =>
      obtain ⟨t, e⟩ := p
      refine ⟨hA, ?_, ?_, ?_⟩
      · intro hc; simp [writerMicroStep] at hc
      · intro _; exact ⟨(t, e), rest, rfl, rfl⟩
      · intro hc; simp [writerMicroStep] at hc
  | tokenWritten =>
    cases pending with
    | nil => exact ⟨hA, hidle, htok, hboth⟩
    | cons p rest =>
      obtain ⟨t, e⟩ := p
      obtain ⟨q, qrest, hq, hqtok⟩ := htok rfl
      simp only [List.cons.injEq] at hq
      refine ⟨hA, ?_, ?_, ?_⟩
      · intro hc; simp [writerMicroStep] at hc
      · intro hc; simp [writerMicroStep] at hc
      · intro _
        refine ⟨(t, e), rest, rfl, ?_⟩
        have h1 : tok = q.1 := hqtok
        have h2 : (t, e) = q := hq.1
        show (tok, e) = (t, e)
        rw [h1, ← h2]
  | bothWritten =>
    cases pending with
    | nil => exact ⟨hA, hidle, htok, hboth⟩
    | cons p rest =>
      obtain ⟨q, qrest, hq, hqpair⟩ := hboth rfl
      simp only [List.cons.injEq] at hq
      refine ⟨?_, ?_, ?_, ?_⟩
      · intro x hx; exact hA x (List.mem_cons_of_mem p hx)
      · intro _
        have h1 : (tok, err) = q := hqpair
        have h2 : p = q := hq.1
        show (tok, err) ∈ A
        rw [h1, ← h2]
        exact hA p (List.mem_cons_self p rest)
      · intro hc; simp [writerMicroStep] at hc
      · intro hc; simp [writerMicroStep] at hc

theorem runRW_reads_published (A : List (String × Option GoError))
    (sched : List Bool) :
    ∀ s : RWState, RWInv A s → ∀ v ∈ (runRW s sched).2, v ∈ A := by
  induction sched with
  | nil =>
    intro s _ v hv
    simp [runRW] at hv
  | cons b rest ih =>
    intro s hs v hv
    cases b with
    | false =>
      simp only [runRW] at hv
      by_cases hp : s.phase = WPhase.idle
      · rw [if_pos hp] at hv
        rcases List.mem_cons.mp hv with h | h
        · exact h ▸ hs.2.1 hp
        · exact ih s hs v h
      · rw [if_neg hp] at hv
        exact ih s hs v hv
    | true =>
      exact ih (writerMicroStep s) (writerMicroStep_preserves A s hs) v hv

/-- C3: the token and error fields always come from the same fetch attempt.
Starting from an idle cell holding `(tok0, err0)` with any stream of pairs
the refresh routine will publish, every pair any reader observes — under any
interleaving of reader attempts with the writer's micro-steps, with readers
admitted only while the write lock is free — is either the initial pair or
exactly one of the published pairs, never a mix of fields from two
attempts. -/
theorem reads_observe_whole_published_pairs (tok0 : String)
    (err0 : Option GoError) (updates : List (String × Option GoError))
    (sched : List Bool) (v : String × Option GoError)
    (hv : v ∈ (runRW ⟨tok0, err0, WPhase.idle, updates⟩ sched).2) :
    v = (tok0, err0) ∨ v ∈ updates := by
  have hInv : RWInv ((tok0, err0) :: updates) ⟨tok0, err0, WPhase.idle, updates⟩ := by
    refine ⟨?_, ?_, ?_, ?_⟩
    · intro p hp; exact List.mem_cons_of_mem _ hp
    · intro _; exact List.mem_cons_self _ _
    · intro hc; cases hc
    · intro hc; cases hc
  have h := runRW_reads_published ((tok0, err0) :: updates) sched
    ⟨tok0, err0, WPhase.idle, updates⟩ hInv v hv
  simpa using h

/-- Witness for C3: one reader observes the initial pair, the writer fully
publishes ("tok1", none), and a second reader then observes it whole. -/
theorem reads_observe_whole_published_pairs_witness :
    ("tok1", (none : Option GoError)) ∈
      (runRW ⟨"", none, WPhase.idle, [("tok1", none)]⟩
        [false, true, true, true, true, false]).2 ∧
    (("tok1", (none : Option GoError)) = ("", none) ∨
      ("tok1", (none : Option GoError)) ∈ [("tok1", (none : Option GoError))]) :=
  ⟨by decide,
   reads_observe_whole_published_pairs "" none [("tok1", none)]
     [false, true, true, true, true, false] ("tok1", none) (by decide)⟩

/-- C10: `getJSON` returns a non-nil error exactly when the GET fails, the
status is not 200 OK, or decoding fails; on success it decodes the body and
returns nil; and it never touches the buffer pool. -/
theorem getJSON_error_characterisation (env : GetEnv) :
    ((getJSON env).err ≠ none ↔
      ((∃ m, env.getResult = Except.error m) ∨
       (∃ resp, env.getResult = Except.ok resp ∧ resp.statusCode ≠ StatusOK) ∨
       (∃ resp m, env.getResult = Except.ok resp ∧ resp.statusCode = StatusOK ∧
          env.decodeResult = some m))) ∧
    ((getJSON env).err = none → (getJSON env).decodeAttempted = true) ∧
    (getJSON env).poolEvents = [] := by
  obtain ⟨get, dec⟩ := env
  cases get with
  | error m => simp [getJSON]
  | ok resp =>
    by_cases h : resp.statusCode = StatusOK
    · cases dec <;> simp [getJSON, h]
    · simp [getJSON, h]

end WechatClient
